import Mathlib

/-!
Verification of the job/process supervision layer of the veo MCP server.

The Lean definitions below are a shallow embedding of the Python sources:
`src/utils/generation_manager.py` (GenerationManager), `src/utils/generation_worker.py`
(GenerationWorker._update_state), `src/services/video_generation.py`
(veo_cleanup_sessions, veo_download_video) and `src/utils/common.py`
(parse_int_param, parse_bool_param).

Modelling conventions:
* The on-disk state directory is a list of job records (`Store`); a record's
  file name is `<session_id>.json`, so records are keyed by their `session_id`
  field.  `readStore`/`writeStore`/`removeStore` model `_read_state`,
  `_write_state` and `Path.unlink`.
* Timestamps (ISO strings produced by `datetime.utcnow().isoformat()`) are
  modelled as natural numbers; the lexicographic order on the ISO strings
  agrees with the numeric order on times.  The Unix timestamp embedded in a
  session id is modelled by the decimal digits of the final `_`-separated
  component of the id, as in the Python `int(session_id.split("_")[-1])`.
* OS process liveness (`GenerationManager._is_process_running`) is an
  abstract parameter `alive : Int → Bool`; the remote download SDK call
  (`VeoClient.download_video_by_file_id`) is an abstract parameter
  `fetchById : String → Except String Nat`; local-filesystem probes used by
  `veo_download_video` are the parameters `localExists` and `localSize`.
* Python dict truthiness of the `pid` and `error` fields is modelled by
  `pidTruthy` and `errTruthy` (absent, zero, and empty-string values are
  falsy, as in Python).
-/

namespace Veo

/-- Job status values; the source stores these as the strings
"starting", "running", "generating", "polling", "completed", "failed",
"cancelled". -/
inductive Status where
  | starting
  | running
  | generating
  | polling
  | completed
  | failed
  | cancelled
  deriving DecidableEq, Repr

/-- Statuses the manager treats as terminal: `completed`, `failed`, `cancelled`. -/
def terminalStatuses : List Status := [.completed, .failed, .cancelled]

/-- Statuses for which `get_status` and `list_generations` probe process
liveness: the literal list `["running", "generating", "polling"]` in the
source. -/
def checkedStatuses : List Status := [.running, .generating, .polling]

/-- Statuses `list_generations` keeps under `active_only` and for which
`cancel_generation` proceeds: the literal list
`["running", "generating", "polling", "starting"]`. -/
def activeStatuses : List Status := [.running, .generating, .polling, .starting]

/-- One entry of the record's `videos` list (a result artifact descriptor);
only the `uri` field is read by the verified operations. -/
structure Video where
  uri : Option String
  deriving DecidableEq, Repr

/-- One entry of the record's `downloaded_videos` list:
`{"index": ..., "file_path": ..., "file_size": ...}`. -/
structure DownloadedVideo where
  index : Int
  file_path : String
  file_size : Nat
  deriving DecidableEq, Repr

/-- A persisted job record (one JSON state file).  Fields the verified
operations never read (model name, generation_config, ...) are omitted. -/
structure Record where
  session_id : String
  status : Status
  progress : String
  prompt : String
  pid : Option Int
  error : Option String
  videos : List Video
  downloaded_videos : List DownloadedVideo
  started_at : Nat
  updated_at : Nat
  deriving DecidableEq, Repr

/-- The state directory: one record per state file. -/
abbrev Store := List Record

/-- Reading `<sid>.json` (`GenerationManager._read_state`): the record whose
file name, i.e. `session_id`, matches. -/
def readStore : Store → String → Option Record
  | [], _ => none
  | s :: rest, sid => if s.session_id = sid then some s else readStore rest sid

/-- Writing `<sid>.json` (`GenerationManager._write_state`): replaces the
record stored under `sid`, or creates it. -/
def writeStore : Store → String → Record → Store
  | [], _, r => [r]
  | s :: rest, sid, r => if s.session_id = sid then r :: rest else s :: writeStore rest sid r

/-- Deleting `<sid>.json` (`state_file.unlink()` in `veo_cleanup_sessions`). -/
def removeStore : Store → String → Store
  | [], _ => []
  | s :: rest, sid =>
    if s.session_id = sid then removeStore rest sid else s :: removeStore rest sid

/-- Python truthiness of `state.get("pid")`: absent or `0` is falsy. -/
def pidTruthy : Option Int → Bool
  | none => false
  | some p => p ≠ 0

/-- Python truthiness of `state.get("error")`: absent or `""` is falsy. -/
def errTruthy : Option String → Bool
  | none => false
  | some s => !(s == "")

/-- Error message written by the dead-process reconciliation in
`GenerationManager.get_status`. -/
def terminatedMsg : String := "Generation process terminated unexpectedly"

/-- `GenerationManager.get_status` (generation_manager.py lines 246-262):
reads the record; when a pid is present, the status is one of
running/generating/polling, the process is dead, the status is not
`completed` and no error is set, rewrites the record as `failed` with
`terminatedMsg` and persists it.  Returns the (possibly healed) record and
the resulting store; `none` models the not-found result dict. -/
def get_status (alive : Int → Bool) (st : Store) (sid : String) : Option Record × Store :=
  match readStore st sid with
  | none => (none, st)
  | some s =>
    if pidTruthy s.pid ∧ s.status ∈ checkedStatuses then
      if alive (s.pid.getD 0) = false then
        if s.status ≠ .completed ∧ errTruthy s.error = false then
          let s2 : Record := { s with status := .failed, error := some terminatedMsg }
          (some s2, writeStore st sid s2)
        else (some s, st)
      else (some s, st)
    else (some s, st)

/-- The in-memory liveness reconciliation of `GenerationManager.list_generations`
(lines 273-280): a record with a pid in running/generating/polling whose
process is dead has its status set to `failed` (the source guards on
`!= "completed"`); nothing is persisted and no error is set. -/
def reconcileList (alive : Int → Bool) (s : Record) : Record :=
  if pidTruthy s.pid ∧ s.status ∈ checkedStatuses ∧ alive (s.pid.getD 0) = false then
    { s with status := if s.status ≠ .completed then .failed else s.status }
  else s

/-- Sort order of `list_generations`: `generations.sort(key=lambda x:
x.get("started_at", ""), reverse=True)` - most recent `started_at` first. -/
def newerFirst (a b : Record) : Prop := b.started_at ≤ a.started_at

instance : DecidableRel newerFirst := fun a b => Nat.decLe b.started_at a.started_at

instance : IsTotal Record newerFirst :=
  ⟨fun a b => (Nat.le_total b.started_at a.started_at).imp id id⟩

instance : IsTrans Record newerFirst :=
  ⟨fun _ _ _ h1 h2 => Nat.le_trans h2 h1⟩

/-- `GenerationManager.list_generations` (lines 264-292): enumerates all
state files, applies the in-memory reconciliation to each, keeps a record
when `active_only` is off or its status is in `activeStatuses`, and sorts
newest-first by `started_at`.  The store is not written. -/
def list_generations (alive : Int → Bool) (st : Store) (active_only : Bool) : List Record :=
  let gens := st.filterMap (fun s0 =>
    if active_only = false ∨ (reconcileList alive s0).status ∈ activeStatuses
    then some (reconcileList alive s0) else none)
  List.insertionSort newerFirst gens

/-- Result of `GenerationManager.cancel_generation`. -/
inductive CancelOutcome where
  | notFound
  | wrongStatus (s : Status)
  | ok
  deriving DecidableEq, Repr

/-- `GenerationManager.cancel_generation` (lines 294-347): a missing record
is an error; a record whose status is not in `activeStatuses` is returned as
a `wrongStatus` error naming the current status, with nothing written;
otherwise (after the out-of-scope SIGTERM/SIGKILL sequence) the record is
rewritten as `cancelled` with error "Cancelled by user" and a fresh
`updated_at`. -/
def cancel_generation (now : Nat) (st : Store) (sid : String) : CancelOutcome × Store :=
  match readStore st sid with
  | none => (.notFound, st)
  | some s =>
    if s.status ∉ activeStatuses then (.wrongStatus s.status, st)
    else
      let s2 : Record := { s with status := .cancelled, error := some "Cancelled by user",
                                  updated_at := now }
      (.ok, writeStore st sid s2)

/-- Initial state dict built by `GenerationManager.start_generation`
(lines 114-133) at clock value `t0`. -/
def initialRecord (sid prompt : String) (t0 : Nat) : Record :=
  { session_id := sid
    status := .starting
    progress := "initializing subprocess"
    prompt := prompt
    pid := none
    error := none
    videos := []
    downloaded_videos := []
    started_at := t0
    updated_at := t0 }

/-- Result dict of `start_generation`. -/
structure StartResult where
  session_id : String
  ok : Bool
  pid : Option Int
  error : Option String
  deriving DecidableEq, Repr

/-- `GenerationManager.start_generation` (lines 91-244): writes the initial
`starting` record, then spawns the worker (`spawn` is the outcome of
`subprocess.Popen`: a pid, or the exception's message).  On success the
record is rewritten with the pid, status `running` and progress
"subprocess started"; on failure it is rewritten as `failed` with the spawn
error, which is also returned.  `t0` is the clock at creation and `t1` the
clock at the second write; the source reads the clock only at creation, so
`t1` does not occur in the body. -/
def start_generation (sid prompt : String) (t0 t1 : Nat) (spawn : Except String Int)
    (st : Store) : StartResult × Store :=
  let state0 := initialRecord sid prompt t0
  let st1 := writeStore st sid state0
  match spawn with
  | .ok pid =>
    let state1 : Record := { state0 with pid := some pid, status := .running,
                                         progress := "subprocess started" }
    ({ session_id := sid, ok := true, pid := some pid, error := none },
      writeStore st1 sid state1)
  | .error e =>
    let state1 : Record := { state0 with status := .failed, error := some e }
    ({ session_id := sid, ok := false, pid := none, error := some e },
      writeStore st1 sid state1)

/-- A partial field update (the `updates` dict passed to
`GenerationManager._update_session_state` and
`GenerationWorker._update_state`); a `none` field is absent from the dict. -/
structure Updates where
  status : Option Status := none
  progress : Option String := none
  error : Option (Option String) := none
  videos : Option (List Video) := none
  downloaded_videos : Option (List DownloadedVideo) := none
  deriving DecidableEq, Repr

/-- Python `state.update(updates)`: supplied fields overwrite, others keep
their value. -/
def applyUpdates (s : Record) (u : Updates) : Record :=
  { s with
    status := u.status.getD s.status
    progress := u.progress.getD s.progress
    error := u.error.getD s.error
    videos := u.videos.getD s.videos
    downloaded_videos := u.downloaded_videos.getD s.downloaded_videos }

/-- `GenerationManager._update_session_state` (lines 349-358): read, merge the
supplied fields, stamp `updated_at` with the current clock, write back; a
missing record is left alone. -/
def update_session_state (now : Nat) (st : Store) (sid : String) (u : Updates) : Store :=
  match readStore st sid with
  | none => st
  | some s => writeStore st sid { applyUpdates s u with updated_at := now }

/-- `GenerationWorker._update_state` (generation_worker.py lines 54-71) on an
existing record: read, merge, stamp `updated_at`, write atomically.  (On a
failed read the source merges into an empty dict; that path is outside the
verified claims.) -/
def worker_update_state (now : Nat) (st : Store) (sid : String) (u : Updates) : Store :=
  match readStore st sid with
  | none => st
  | some s => writeStore st sid { applyUpdates s u with updated_at := now }

/-- Characters of a decimal digit run accumulated left to right; `none` when
a non-digit appears. -/
def decDigitsAux : List Char → Nat → Option Nat
  | [], acc => some acc
  | c :: rest, acc =>
    if c.isDigit then decDigitsAux rest (acc * 10 + (c.toNat - 48)) else none

/-- A nonempty run of decimal digits as a number. -/
def decDigits : List Char → Option Nat
  | [] => none
  | c :: rest => decDigitsAux (c :: rest) 0

/-- Python `int()` on a plain decimal string (an optional sign followed by
digits); surrounding whitespace and underscore grouping are not modelled. -/
def pyInt : List Char → Option Int
  | '-' :: rest => (decDigits rest).map (fun n => -(n : Int))
  | '+' :: rest => (decDigits rest).map (fun n => (n : Int))
  | cs => (decDigits cs).map (fun n => (n : Int))

/-- Python `s.split("_")` on the character list of `s` (always nonempty). -/
def splitUnderscore : List Char → List (List Char)
  | [] => [[]]
  | c :: rest =>
    let r := splitUnderscore rest
    if c = '_' then [] :: r
    else (c :: r.headD []) :: r.tail

/-- The suffix following the first occurrence of `pat` (nonempty), scanning
left-to-right; `none` when `pat` does not occur. -/
def afterFirst (pat : List Char) : List Char → Option (List Char)
  | [] => none
  | c :: rest =>
    if pat.isPrefixOf (c :: rest) then some ((c :: rest).drop pat.length)
    else afterFirst pat rest

/-- The prefix preceding the first occurrence of `pat` (all of the list when
`pat` does not occur). -/
def beforeFirst (pat : List Char) : List Char → List Char
  | [] => []
  | c :: rest =>
    if pat.isPrefixOf (c :: rest) then []
    else c :: beforeFirst pat rest

/-- Python `s.startswith(pat)`. -/
def pyStartsWith (s pat : String) : Bool := pat.data.isPrefixOf s.data

/-- Python parameter value of type `Union[int, str, None]`. -/
inductive PyParam where
  | int (i : Int)
  | str (s : String)
  | none
  deriving DecidableEq, Repr

/-- `parse_int_param` (common.py lines 27-49): an int passes through, a string
is parsed (falling back to the default on `ValueError`), `None` yields the
default.  Python's `int()` on a plain decimal string is modelled by
`String.toInt?`. -/
def parse_int_param (value : PyParam) (default : Option Int) : Option Int :=
  match value with
  | .none => default
  | .int i => some i
  | .str s =>
    match pyInt s.data with
    | some i => some i
    | Option.none => default

/-- The Unix creation timestamp embedded in a session id:
`int(session_id.split("_")[-1])` in `veo_cleanup_sessions`, `none` on a
`ValueError`. -/
def parse_session_timestamp (sid : String) : Option Int :=
  match (splitUnderscore sid.data).getLast? with
  | none => none
  | some cs => pyInt cs

/-- The per-session decision of the `veo_cleanup_sessions` loop
(video_generation.py lines 338-353): skip when the embedded timestamp is
missing or newer than the cutoff, and, under `completed_only`, when the
status is non-terminal; otherwise the session is removed. -/
def cleanup_selects (cutoff : Int) (completed_only : Bool) (s : Record) : Bool :=
  match parse_session_timestamp s.session_id with
  | none => false
  | some ts =>
    if ts > cutoff then false
    else if completed_only = true ∧ s.status ∉ terminalStatuses then false
    else true

/-- One iteration of the `veo_cleanup_sessions` loop (lines 338-364): a
selected session's state file is deleted, and the deletion is counted when
the file exists; other sessions are left alone. -/
def cleanup_step (sel : Record → Bool) (acc : Nat × Store) (s : Record) : Nat × Store :=
  if sel s then
    if (readStore acc.2 s.session_id).isSome then
      (acc.1 + 1, removeStore acc.2 s.session_id)
    else (acc.1, removeStore acc.2 s.session_id)
  else acc

/-- `veo_cleanup_sessions` (video_generation.py lines 307-373): computes the
cutoff `now - older_than_days*24*60*60`, enumerates `list_generations()`
(no filter, hence with the in-memory liveness reconciliation applied), and
runs the deletion loop over the sessions.  Returns the count and the
resulting store. -/
def veo_cleanup_sessions (alive : Int → Bool) (now older_than_days : Int)
    (completed_only : Bool) (st : Store) : Nat × Store :=
  let cutoff := now - older_than_days * 24 * 60 * 60
  let sessions := list_generations alive st false
  sessions.foldl (cleanup_step (cleanup_selects cutoff completed_only)) (0, st)

/-- Deleting a list of state files in order. -/
def removeMany (st : Store) (sids : List String) : Store := sids.foldl removeStore st

/-- Python list indexing `l[i]`: non-negative indices from the front,
negative indices from the back, `none` for an `IndexError`. -/
def pyGet (l : List α) (i : Int) : Option α :=
  if 0 ≤ i then l[i.toNat]?
  else if 0 ≤ i + l.length then l[(i + l.length).toNat]? else none

/-- Python substring test `pat in s` for a nonempty pattern. -/
def containsSub (s pat : String) : Bool := (afterFirst pat.data s.data).isSome

/-- `video_uri.split("files/")[1].split(":download")[0]` in
`veo_download_video` (line 492): the text between the first occurrence of
`files/` and the next occurrence of `files/` (the second split part), cut at
the first `:download`. -/
def extract_file_id (uri : String) : String :=
  match afterFirst "files/".data uri.data with
  | some rest => ⟨beforeFirst ":download".data (beforeFirst "files/".data rest)⟩
  | none => ""

/-- The download file path `output_dir / f"veo_{sid}_{video_index}_{timestamp}.mp4"`
(lines 471-473). -/
def mkDownloadPath (output_dir sid : String) (video_index : Int) (now : Nat) : String :=
  output_dir ++ "/veo_" ++ sid ++ "_" ++ toString video_index ++ "_" ++ toString now ++ ".mp4"

/-- Result of `veo_download_video`. -/
inductive DownloadResult where
  | notComplete (s : Option Status)
  | noVideos
  | indexOutOfRange (idx : Int) (available : Nat)
  | cached (file_path : String) (file_size : Nat)
  | noUri
  | invalidUri (uri : String)
  | fetchFailed (e : String)
  | ok (file_path : String) (file_size : Nat)
  deriving DecidableEq, Repr

/-- `veo_download_video` (video_generation.py lines 376-538): checks the
session via `get_status` (which may itself heal and persist), requires
status `completed` and a nonempty `videos` list, rejects
`video_index >= len(videos)`, returns the recorded path and size when the
index already appears in `downloaded_videos` (first match), and otherwise
selects `videos[video_index]` by Python indexing, resolves its URI (local
copy when it is an existing absolute path, otherwise the
`files/<id>:download` API form), stats the written file for its size,
appends a `downloaded_videos` entry and persists it through
`_update_session_state`. -/
def veo_download_video (alive : Int → Bool) (now : Nat)
    (fetchById : String → Except String Nat)
    (localExists : String → Bool) (localSize : String → Nat)
    (st : Store) (sid : String) (video_index : Int) (output_dir : String) :
    DownloadResult × Store :=
  let gs := get_status alive st sid
  let st1 := gs.2
  match gs.1 with
  | none => (.notComplete none, st1)
  | some r =>
    if r.status ≠ .completed then (.notComplete (some r.status), st1)
    else if r.videos = [] then (.noVideos, st1)
    else if (r.videos.length : Int) ≤ video_index then
      (.indexOutOfRange video_index r.videos.length, st1)
    else
      match r.downloaded_videos.find? (fun dv => dv.index = video_index) with
      | some dv => (.cached dv.file_path dv.file_size, st1)
      | none =>
        match pyGet r.videos video_index with
        | none => (.fetchFailed "IndexError", st1)
        | some v =>
          match v.uri with
          | none => (.noUri, st1)
          | some uri =>
            if uri = "" then (.noUri, st1)
            else
              let full_path := mkDownloadPath output_dir sid video_index now
              if pyStartsWith uri "/" = true ∧ localExists uri = true then
                let size := localSize full_path
                let dvs := r.downloaded_videos ++ [⟨video_index, full_path, size⟩]
                (.ok full_path size,
                  update_session_state now st1 sid { downloaded_videos := some dvs })
              else if containsSub uri "files/" ∧ containsSub uri ":download" then
                match fetchById (extract_file_id uri) with
                | .error e => (.fetchFailed e, st1)
                | .ok _ =>
                  let size := localSize full_path
                  let dvs := r.downloaded_videos ++ [⟨video_index, full_path, size⟩]
                  (.ok full_path size,
                    update_session_state now st1 sid { downloaded_videos := some dvs })
              else (.invalidUri uri, st1)

/-- Observable state of the canonical state file and its `.tmp` sibling
during `_write_state` / `GenerationWorker._update_state`. -/
structure FileState where
  canonical : Option String
  temp : Option String
  deriving DecidableEq, Repr

/-- Small-step model of the atomic write protocol shared by
`GenerationManager._write_state` (generation_manager.py lines 42-58) and
`GenerationWorker._update_state` (generation_worker.py lines 54-71): the
full serialized record `next` is written to the `.tmp` file (passing through
a torn intermediate content `torn`), then `temp_file.replace(state_file)`
atomically renames it over the canonical file; an exception raised before
the rename completes (`crash = some 0` during the temp write, `some 1`
between the write and the rename) runs the handler, which unlinks the temp
file and leaves the canonical file untouched.  Returns the list of
observable file states in order, the final state, and whether the write
succeeded. -/
def write_state_run (old : Option String) (next torn : String) (crash : Option Nat) :
    List FileState × FileState × Bool :=
  let s0 : FileState := ⟨old, none⟩
  let s1 : FileState := ⟨old, some torn⟩
  let s2 : FileState := ⟨old, some next⟩
  match crash with
  | some 0 => ([s0, s1, ⟨old, none⟩], ⟨old, none⟩, false)
  | some 1 => ([s0, s1, s2, ⟨old, none⟩], ⟨old, none⟩, false)
  | _ => ([s0, s1, s2, ⟨some next, none⟩], ⟨some next, none⟩, true)

/-- Concrete sample: a non-terminal `starting` record carrying a pid. -/
def sampleStarting : Record :=
  { session_id := "gen_a_1", status := .starting, progress := "", prompt := "",
    pid := some 5, error := none, videos := [], downloaded_videos := [],
    started_at := 1, updated_at := 1 }

/-- Concrete sample: a `running` record whose worker process has died. -/
def sampleRunning : Record :=
  { session_id := "gen_b_2", status := .running, progress := "", prompt := "",
    pid := some 7, error := none, videos := [], downloaded_videos := [],
    started_at := 2, updated_at := 2 }

/-- Concrete sample: a `completed` record with one result artifact and one
downloaded-artifact entry. -/
def sampleCompleted : Record :=
  { session_id := "gen_c_3", status := .completed, progress := "done", prompt := "",
    pid := some 9, error := none,
    videos := [⟨some "https://host/v1beta/files/abc:download?alt=media"⟩],
    downloaded_videos := [⟨0, "/out/a.mp4", 17⟩],
    started_at := 3, updated_at := 3 }

/-- Concrete sample: a terminal record 8 days older than a 7-day cutoff. -/
def sampleOldRunning : Record :=
  { session_id := "gen_x_100", status := .running, progress := "", prompt := "",
    pid := none, error := none, videos := [], downloaded_videos := [],
    started_at := 100, updated_at := 100 }

section Lemmas

/-- A record read back under `sid` carries `sid` as its `session_id`. -/
theorem readStore_session_id {st : Store} {sid : String} {s : Record}
    (h : readStore st sid = some s) : s.session_id = sid := by
  induction st with
  | nil => cases h
  | cons a rest ih =>
    simp only [readStore] at h
    split at h
    · cases h; assumption
    · exact ih h

/-- Reading back a just-written record. -/
theorem readStore_writeStore_self {st : Store} {sid : String} {r : Record}
    (h : r.session_id = sid) : readStore (writeStore st sid r) sid = some r := by
  induction st with
  | nil => simp [writeStore, readStore, h]
  | cons a rest ih =>
    by_cases ha : a.session_id = sid
    · simp [writeStore, ha, readStore, h]
    · simp [writeStore, ha, readStore, ih]

/-- Deleting one state file leaves the others readable. -/
theorem readStore_removeStore_ne {st : Store} {sid sid' : String} (h : sid' ≠ sid) :
    readStore (removeStore st sid) sid' = readStore st sid' := by
  induction st with
  | nil => rfl
  | cons a rest ih =>
    by_cases ha : a.session_id = sid
    · have hne : ¬ a.session_id = sid' := fun e => h (e ▸ ha)
      rw [removeStore, if_pos ha, readStore, if_neg hne]
      exact ih
    · rw [removeStore, if_neg ha, readStore, readStore]
      by_cases ha' : a.session_id = sid'
      · rw [if_pos ha', if_pos ha']
      · rw [if_neg ha', if_neg ha']
        exact ih

/-- A stored record's state file exists. -/
theorem readStore_isSome_of_mem {st : Store} {s : Record} (h : s ∈ st) :
    (readStore st s.session_id).isSome = true := by
  induction st with
  | nil => cases h
  | cons a rest ih =>
    by_cases ha : a.session_id = s.session_id
    · simp [readStore, ha]
    · rcases List.mem_cons.mp h with h | h
      · cases h; exact absurd rfl ha
      · simp only [readStore, if_neg ha]
        exact ih h

/-- The in-memory reconciliation never changes the session id. -/
theorem reconcileList_session_id (alive : Int → Bool) (s : Record) :
    (reconcileList alive s).session_id = s.session_id := by
  unfold reconcileList; split <;> rfl

/-- The in-memory reconciliation never changes `started_at`. -/
theorem reconcileList_started_at (alive : Int → Bool) (s : Record) :
    (reconcileList alive s).started_at = s.started_at := by
  unfold reconcileList; split <;> rfl

/-- The in-memory reconciliation never changes `error`. -/
theorem reconcileList_error (alive : Int → Bool) (s : Record) :
    (reconcileList alive s).error = s.error := by
  unfold reconcileList; split <;> rfl

/-- Membership in `list_generations`: exactly the reconciled records passing
the `active_only` filter. -/
theorem mem_list_generations {alive : Int → Bool} {st : Store} {active_only : Bool}
    {r : Record} :
    r ∈ list_generations alive st active_only ↔
      ∃ s ∈ st, reconcileList alive s = r ∧
        (active_only = false ∨ r.status ∈ activeStatuses) := by
  unfold list_generations
  rw [List.mem_insertionSort, List.mem_filterMap]
  constructor
  · rintro ⟨a, ha, hf⟩
    by_cases hc : active_only = false ∨ (reconcileList alive a).status ∈ activeStatuses
    · rw [if_pos hc] at hf
      cases hf
      exact ⟨a, ha, rfl, hc⟩
    · rw [if_neg hc] at hf
      cases hf
  · rintro ⟨s, hs, hr, hc⟩
    refine ⟨s, hs, ?_⟩
    show (if active_only = false ∨ (reconcileList alive s).status ∈ activeStatuses
        then some (reconcileList alive s) else none) = some r
    rw [hr, if_pos hc]

/-- A field update never changes the session id. -/
theorem applyUpdates_session_id (s : Record) (u : Updates) :
    (applyUpdates s u).session_id = s.session_id := rfl

/-- `get_status` without a liveness probe: status outside
running/generating/polling is returned as stored. -/
theorem get_status_no_probe {alive : Int → Bool} {st : Store} {sid : String} {s : Record}
    (h : readStore st sid = some s) (hs : s.status ∉ checkedStatuses) :
    get_status alive st sid = (some s, st) := by
  unfold get_status
  rw [h]
  exact if_neg fun hc => hs hc.2

end Lemmas

/-- C1 counterexample: a persisted record in the non-terminal status
`starting` with a pid whose process is dead is returned by `get_status`
unchanged and unpersisted - it is not transitioned to `failed`, refuting the
claim for non-terminal statuses outside running/generating/polling. -/
theorem c1_counterexample_starting_not_healed :
    (get_status (fun _ => false) [sampleStarting] "gen_a_1").1 = some sampleStarting ∧
    sampleStarting.status = .starting ∧
    sampleStarting.status ∉ terminalStatuses ∧
    pidTruthy sampleStarting.pid = true ∧
    (get_status (fun _ => false) [sampleStarting] "gen_a_1").2 = [sampleStarting] := by
  refine ⟨by decide, rfl, by decide, rfl, by decide⟩

/-- C1 (amended): for a persisted record whose status is `running`,
`generating` or `polling`, whose pid is present (truthy) and whose process is
dead, and which carries no nonempty error, `get_status` transitions the
record to the terminal status `failed` with the "terminated unexpectedly"
message, persists that transition, and returns the healed record. -/
theorem c1_get_status_heals_dead_process (alive : Int → Bool) (st : Store) (sid : String)
    (s : Record) (h : readStore st sid = some s)
    (hst : s.status ∈ checkedStatuses) (hpid : pidTruthy s.pid = true)
    (hdead : alive (s.pid.getD 0) = false) (herr : errTruthy s.error = false) :
    get_status alive st sid =
      (some { s with status := .failed, error := some terminatedMsg },
        writeStore st sid { s with status := .failed, error := some terminatedMsg }) ∧
    Status.failed ∈ terminalStatuses ∧
    readStore (get_status alive st sid).2 sid =
      some { s with status := .failed, error := some terminatedMsg } := by
  have hne : s.status ≠ .completed := by
    simp only [checkedStatuses, List.mem_cons, List.not_mem_nil, or_false] at hst
    rcases hst with h1 | h1 | h1 <;> rw [h1] <;> decide
  have hmain : get_status alive st sid =
      (some { s with status := .failed, error := some terminatedMsg },
        writeStore st sid { s with status := .failed, error := some terminatedMsg }) := by
    simp [get_status, h, hpid, hst, hdead, herr, hne]
  have hsid : s.session_id = sid := readStore_session_id h
  refine ⟨hmain, by decide, ?_⟩
  rw [hmain]
  exact readStore_writeStore_self (r := { s with status := .failed, error := some terminatedMsg }) hsid

/-- C1 witness: the amended healing theorem at a concrete dead `running`
record. -/
theorem c1_witness :
    get_status (fun _ => false) [sampleRunning] "gen_b_2" =
      (some { sampleRunning with status := .failed, error := some terminatedMsg },
        writeStore [sampleRunning] "gen_b_2"
          { sampleRunning with status := .failed, error := some terminatedMsg }) := by
  exact (c1_get_status_heals_dead_process (fun _ => false) [sampleRunning] "gen_b_2"
    sampleRunning (by decide) (by decide) (by decide) rfl (by decide)).1

/-- C2: the write protocol is atomic - at every observable point the
canonical state file holds either the prior complete record or the new
complete record (never the torn temp content), and on failure the temp file
is discarded and the canonical record is left untouched, while on success
the canonical file holds the new record. -/
theorem c2_write_state_atomic (old : Option String) (next torn : String) (crash : Option Nat) :
    (∀ fs ∈ (write_state_run old next torn crash).1,
        fs.canonical = old ∨ fs.canonical = some next) ∧
    (write_state_run old next torn crash).2.1 =
      (if (write_state_run old next torn crash).2.2 then FileState.mk (some next) none
        else FileState.mk old none) := by
  constructor
  · intro fs hfs
    rcases crash with _ | (_ | (_ | n)) <;>
      simp only [write_state_run, List.mem_cons, List.not_mem_nil, or_false] at hfs
    · rcases hfs with h | h | h | h <;> subst h <;> simp
    · rcases hfs with h | h | h <;> subst h <;> simp
    · rcases hfs with h | h | h | h <;> subst h <;> simp
    · rcases hfs with h | h | h | h <;> subst h <;> simp
  · rcases crash with _ | (_ | (_ | n)) <;> rfl

/-- C7: `cancel_generation` on a record whose status is terminal returns an
error identifying the current status and leaves the store - hence every
field of the persisted record - unchanged. -/
theorem c7_cancel_terminal_no_mutation (now : Nat) (st : Store) (sid : String) (s : Record)
    (h : readStore st sid = some s) (ht : s.status ∈ terminalStatuses) :
    cancel_generation now st sid = (.wrongStatus s.status, st) := by
  have hna : s.status ∉ activeStatuses := by
    simp only [terminalStatuses, List.mem_cons, List.not_mem_nil, or_false] at ht
    rcases ht with h1 | h1 | h1 <;> rw [h1] <;> decide
  simp [cancel_generation, h, hna]

/-- C7 witness: cancelling a concrete `completed` session. -/
theorem c7_witness :
    cancel_generation 9 [sampleCompleted] "gen_c_3" =
      (.wrongStatus .completed, [sampleCompleted]) := by
  exact c7_cancel_terminal_no_mutation 9 [sampleCompleted] "gen_c_3" sampleCompleted
    (by decide) (by decide)

/-- C8: when spawning the worker fails, the job record is rewritten to the
terminal status `failed` with the spawn error (so it is not left in
`starting`), the same error is returned to the caller, and a subsequent
`get_status` returns the very same terminal record with a nonempty error,
writing nothing. -/
theorem c8_spawn_failure_terminal (sid prompt : String) (t0 t1 : Nat) (e : String)
    (st : Store) (alive : Int → Bool) (he : e ≠ "") :
    (start_generation sid prompt t0 t1 (.error e) st).1 =
      { session_id := sid, ok := false, pid := none, error := some e } ∧
    readStore (start_generation sid prompt t0 t1 (.error e) st).2 sid =
      some { initialRecord sid prompt t0 with status := .failed, error := some e } ∧
    ({ initialRecord sid prompt t0 with status := .failed, error := some e } : Record).status ≠
      .starting ∧
    errTruthy ({ initialRecord sid prompt t0 with
      status := .failed, error := some e } : Record).error = true ∧
    get_status alive (start_generation sid prompt t0 t1 (.error e) st).2 sid =
      (some { initialRecord sid prompt t0 with status := .failed, error := some e },
        (start_generation sid prompt t0 t1 (.error e) st).2) := by
  have hread : readStore (start_generation sid prompt t0 t1 (.error e) st).2 sid =
      some { initialRecord sid prompt t0 with status := .failed, error := some e } :=
    readStore_writeStore_self rfl
  refine ⟨rfl, hread, ?_, ?_, ?_⟩
  · exact (show Status.failed ≠ Status.starting by decide)
  · simp [errTruthy, he]
  · exact get_status_no_probe hread (show Status.failed ∉ checkedStatuses by decide)

/-- C8 witness: a concrete failed spawn. -/
theorem c8_witness :
    get_status (fun _ => true) (start_generation "gen_d_4" "p" 0 1 (.error "boom") []).2
        "gen_d_4" =
      (some { initialRecord "gen_d_4" "p" 0 with status := .failed, error := some "boom" },
        (start_generation "gen_d_4" "p" 0 1 (.error "boom") []).2) := by
  exact (c8_spawn_failure_terminal "gen_d_4" "p" 0 1 "boom" [] (fun _ => true)
    (by decide)).2.2.2.2

/-- C4 counterexample: `start_generation` creates the record at clock 0 and
performs its post-spawn write at clock 5, yet the persisted record still
carries `updated_at = 0` - that write does not stamp a fresh timestamp. -/
theorem c4_counterexample_stale_updated_at :
    ((readStore (start_generation "gen_a_1" "p" 0 5 (.ok 7) []).2 "gen_a_1").map
        Record.updated_at) = some 0 ∧ (0 : Nat) ≠ 5 := by
  exact ⟨by decide, by decide⟩

/-- C4 (amended): `updated_at` is refreshed (stamped with the current clock)
by partial-field updates, worker state updates and cancellation, and set at
creation; but the post-spawn `running` write, the spawn-failure write and
the dead-process reconciliation write of `get_status` persist the record
without refreshing `updated_at`. -/
theorem c4_updated_at_policy (alive : Int → Bool) (now t0 t1 : Nat)
    (st st2 : Store) (sid sid2 prompt e : String) (p : Int) (u : Updates) (s : Record)
    (h : readStore st sid = some s) (hst : s.status ∈ checkedStatuses)
    (hpid : pidTruthy s.pid = true) (hdead : alive (s.pid.getD 0) = false)
    (herr : errTruthy s.error = false) :
    readStore (update_session_state now st sid u) sid =
      some { applyUpdates s u with updated_at := now } ∧
    readStore (worker_update_state now st sid u) sid =
      some { applyUpdates s u with updated_at := now } ∧
    readStore (cancel_generation now st sid).2 sid =
      some { s with status := .cancelled, error := some "Cancelled by user",
                    updated_at := now } ∧
    ((get_status alive st sid).1.map Record.updated_at) = some s.updated_at ∧
    ((readStore (start_generation sid2 prompt t0 t1 (.ok p) st2).2 sid2).map
        Record.updated_at) = some t0 ∧
    ((readStore (start_generation sid2 prompt t0 t1 (.error e) st2).2 sid2).map
        Record.updated_at) = some t0 := by
  have hsid : s.session_id = sid := readStore_session_id h
  have hne : s.status ≠ .completed := by
    simp only [checkedStatuses, List.mem_cons, List.not_mem_nil, or_false] at hst
    rcases hst with h1 | h1 | h1 <;> rw [h1] <;> decide
  have hact : s.status ∈ activeStatuses := by
    simp only [checkedStatuses, List.mem_cons, List.not_mem_nil, or_false] at hst
    simp only [activeStatuses, List.mem_cons, List.not_mem_nil, or_false]
    rcases hst with h1 | h1 | h1 <;> simp [h1]
  have h12 : readStore (writeStore st sid { applyUpdates s u with updated_at := now }) sid =
      some { applyUpdates s u with updated_at := now } :=
    readStore_writeStore_self (r := { applyUpdates s u with updated_at := now }) hsid
  have hcancel : (cancel_generation now st sid).2 =
      writeStore st sid { s with status := .cancelled, error := some "Cancelled by user",
                                 updated_at := now } := by
    simp [cancel_generation, h, hact]
  have hget : (get_status alive st sid).1 =
      some { s with status := .failed, error := some terminatedMsg } := by
    simp [get_status, h, hpid, hst, hdead, herr, hne]
  refine ⟨?_, ?_, ?_, ?_, ?_, ?_⟩
  · unfold update_session_state
    rw [h]
    exact h12
  · unfold worker_update_state
    rw [h]
    exact h12
  · rw [hcancel]
    exact readStore_writeStore_self
      (r := { s with status := .cancelled, error := some "Cancelled by user",
                     updated_at := now }) hsid
  · rw [hget]; rfl
  · have hro : readStore (start_generation sid2 prompt t0 t1 (.ok p) st2).2 sid2 =
        some { initialRecord sid2 prompt t0 with pid := some p, status := .running,
                                                 progress := "subprocess started" } :=
      readStore_writeStore_self rfl
    rw [hro]; rfl
  · have hre : readStore (start_generation sid2 prompt t0 t1 (.error e) st2).2 sid2 =
        some { initialRecord sid2 prompt t0 with status := .failed, error := some e } :=
      readStore_writeStore_self rfl
    rw [hre]; rfl

/-- C4 witness: the policy theorem at a concrete dead `running` record. -/
theorem c4_witness :
    ((get_status (fun _ => false) [sampleRunning] "gen_b_2").1.map Record.updated_at) =
      some 2 := by
  exact (c4_updated_at_policy (fun _ => false) 10 0 5 [sampleRunning] [] "gen_b_2" "gen_z_9"
    "p" "err" 7 {} sampleRunning (by decide) (by decide) rfl rfl rfl).2.2.2.1

/-- C5: `list_generations` with `active_only` returns exactly the
(liveness-reconciled) records whose status is in
{starting, running, generating, polling}, and every listing - for any
`active_only` value - is sorted by creation time (`started_at`), most recent
first. -/
theorem c5_list_active_exact (alive : Int → Bool) (st : Store) :
    (∀ r : Record, r ∈ list_generations alive st true ↔
      ∃ s ∈ st, reconcileList alive s = r ∧ r.status ∈ activeStatuses) ∧
    ∀ active_only : Bool, (list_generations alive st active_only).Sorted newerFirst := by
  constructor
  · intro r
    rw [mem_list_generations]
    constructor
    · rintro ⟨s, hs, hr, hc⟩
      rcases hc with hc | hc
      · simp at hc
      · exact ⟨s, hs, hr, hc⟩
    · rintro ⟨s, hs, hr, hc⟩
      exact ⟨s, hs, hr, Or.inr hc⟩
  · intro ao
    unfold list_generations
    exact List.sorted_insertionSort newerFirst _

/-- C6 counterexample: for a concrete dead `running` record,
`list_generations` reports it `failed` but with no error message, while
`get_status` on the same store sets the "terminated unexpectedly" error and
persists a changed store - so list does not apply the same persisted
reconciliation as `get_status`. -/
theorem c6_counterexample_list_does_not_persist :
    list_generations (fun _ => false) [sampleRunning] false =
      [{ sampleRunning with status := .failed }] ∧
    ({ sampleRunning with status := .failed } : Record).error = none ∧
    (get_status (fun _ => false) [sampleRunning] "gen_b_2").1 =
      some { sampleRunning with status := .failed, error := some terminatedMsg } ∧
    (get_status (fun _ => false) [sampleRunning] "gen_b_2").2 ≠ [sampleRunning] ∧
    some terminatedMsg ≠ (none : Option String) := by
  refine ⟨by decide, rfl, by decide, by decide, by decide⟩

/-- C6 (amended): `list_generations` reconciles in memory only: a record
with a present pid in running/generating/polling whose process is dead is
reported with status `failed`, but its error field is left unchanged (no
"terminated unexpectedly" message is attached, unlike `get_status`) and the
store is not written; the reconciled record appears in the unfiltered
listing. -/
theorem c6_list_reconciles_in_memory_only (alive : Int → Bool) (st : Store) (s : Record)
    (hs : s ∈ st) (hpid : pidTruthy s.pid = true) (hst : s.status ∈ checkedStatuses)
    (hdead : alive (s.pid.getD 0) = false) :
    (reconcileList alive s).status = .failed ∧
    (reconcileList alive s).error = s.error ∧
    reconcileList alive s ∈ list_generations alive st false := by
  have hne : s.status ≠ .completed := by
    simp only [checkedStatuses, List.mem_cons, List.not_mem_nil, or_false] at hst
    rcases hst with h1 | h1 | h1 <;> rw [h1] <;> decide
  have hrec : (reconcileList alive s).status = .failed := by
    unfold reconcileList
    rw [if_pos ⟨hpid, hst, hdead⟩]
    simp [hne]
  refine ⟨hrec, reconcileList_error alive s, ?_⟩
  rw [mem_list_generations]
  exact ⟨s, hs, rfl, Or.inl rfl⟩

/-- C6 witness: the in-memory reconciliation at a concrete dead `running`
record. -/
theorem c6_witness :
    (reconcileList (fun _ => false) sampleRunning).error = sampleRunning.error := by
  exact (c6_list_reconciles_in_memory_only (fun _ => false) [sampleRunning] sampleRunning
    (by decide) rfl (by decide) rfl).2.1

/-- C9: download is idempotent per artifact index - on a completed session,
when the index already appears in `downloaded_videos`, the recorded path and
size are returned with nothing fetched and the store untouched (the result
does not depend on the fetch function); and when the index is not yet
recorded, a successful download appends exactly one entry keyed by that
index to `downloaded_videos` and persists it. -/
theorem c9_download_idempotent (alive : Int → Bool) (now : Nat)
    (fetchById : String → Except String Nat) (localExists : String → Bool)
    (localSize : String → Nat) (st : Store) (sid output_dir : String) (i : Int)
    (r : Record) (h : readStore st sid = some r) (hc : r.status = .completed)
    (hvid : r.videos ≠ []) (hlen : i < (r.videos.length : Int)) :
    (∀ dv : DownloadedVideo, r.downloaded_videos.find? (fun d => d.index = i) = some dv →
      veo_download_video alive now fetchById localExists localSize st sid i output_dir =
        (.cached dv.file_path dv.file_size, st)) ∧
    (r.downloaded_videos.find? (fun d => d.index = i) = none →
      ∀ res st2, veo_download_video alive now fetchById localExists localSize st sid i
          output_dir = (res, st2) →
      ∀ p n, res = .ok p n →
        readStore st2 sid =
          some { r with downloaded_videos := r.downloaded_videos ++ [⟨i, p, n⟩],
                        updated_at := now }) := by
  have hsid : r.session_id = sid := readStore_session_id h
  have hnp : get_status alive st sid = (some r, st) :=
    get_status_no_probe h (by rw [hc]; decide)
  have hgt : ¬ ((r.videos.length : Int) ≤ i) := not_le.mpr hlen
  constructor
  · intro dv hfind
    simp [veo_download_video, hnp, hc, hvid, hgt, hfind]
  · intro hfind res st2 heq p n hres
    subst hres
    rcases hpy : pyGet r.videos i with _ | v
    · simp [veo_download_video, hnp, hc, hvid, hgt, hfind, hpy] at heq
    · rcases huri : v.uri with _ | uri
      · simp [veo_download_video, hnp, hc, hvid, hgt, hfind, hpy, huri] at heq
      · by_cases hemp : uri = ""
        · simp [veo_download_video, hnp, hc, hvid, hgt, hfind, hpy, huri, hemp] at heq
        · by_cases hloc : pyStartsWith uri "/" = true ∧ localExists uri = true
          · simp [veo_download_video, hnp, hc, hvid, hgt, hfind, hpy, huri, hemp, hloc]
              at heq
            obtain ⟨⟨hp, hn⟩, hst2⟩ := heq
            subst hp
            subst hn
            subst hst2
            simp only [update_session_state, h]
            exact readStore_writeStore_self hsid
          · by_cases hfid : containsSub uri "files/" = true ∧ containsSub uri ":download" = true
            · rcases hf : fetchById (extract_file_id uri) with e | m
              · simp [veo_download_video, hnp, hc, hvid, hgt, hfind, hpy, huri, hemp,
                  hloc, hfid, hf] at heq
              · simp [veo_download_video, hnp, hc, hvid, hgt, hfind, hpy, huri, hemp,
                  hloc, hfid, hf] at heq
                obtain ⟨⟨hp, hn⟩, hst2⟩ := heq
                subst hp
                subst hn
                subst hst2
                simp only [update_session_state, h]
                exact readStore_writeStore_self hsid
            · simp [veo_download_video, hnp, hc, hvid, hgt, hfind, hpy, huri, hemp,
                hloc, hfid] at heq

/-- C9 witness: re-downloading index 0 of a concrete completed session
returns the recorded path and size with the store untouched. -/
theorem c9_witness :
    veo_download_video (fun _ => true) 99 (fun _ => .ok 1) (fun _ => false) (fun _ => 0)
      [sampleCompleted] "gen_c_3" 0 "/out" = (.cached "/out/a.mp4" 17, [sampleCompleted]) := by
  exact (c9_download_idempotent (fun _ => true) 99 (fun _ => .ok 1) (fun _ => false)
    (fun _ => 0) [sampleCompleted] "gen_c_3" "/out" 0 sampleCompleted (by decide) rfl
    (by decide) (by decide)).1 ⟨0, "/out/a.mp4", 17⟩ (by decide)

/-- C10: `veo_download_video` does not reject negative artifact indices: for
a completed session with at least one video, a nonempty API-form URI on the
last video and no recorded entry for index -1, the out-of-range check
`video_index >= len(videos)` does not fire for -1 (third conjunct), Python
indexing selects the last artifact (first conjunct), and the call proceeds
to a successful download of that artifact instead of returning an
index-out-of-range error (second conjunct); `parse_int_param` passes the
string "-1" through as -1 (last conjunct). -/
theorem c10_negative_index_accepted (alive : Int → Bool) (now : Nat)
    (fetchById : String → Except String Nat) (localExists : String → Bool)
    (localSize : String → Nat) (st : Store) (sid output_dir : String)
    (r : Record) (v : Video) (u : String) (m : Nat)
    (h : readStore st sid = some r) (hc : r.status = .completed)
    (hvid : r.videos ≠ [])
    (hfind : r.downloaded_videos.find? (fun d => d.index = (-1 : Int)) = none)
    (hlast : r.videos.getLast? = some v) (huri : v.uri = some u) (hemp : u ≠ "")
    (hslash : pyStartsWith u "/" = false)
    (hf1 : containsSub u "files/" = true) (hf2 : containsSub u ":download" = true)
    (hf : fetchById (extract_file_id u) = .ok m) :
    pyGet r.videos (-1) = some v ∧
    veo_download_video alive now fetchById localExists localSize st sid (-1) output_dir =
      (.ok (mkDownloadPath output_dir sid (-1) now)
          (localSize (mkDownloadPath output_dir sid (-1) now)),
        update_session_state now st sid
          { downloaded_videos := some (r.downloaded_videos ++
              [⟨-1, mkDownloadPath output_dir sid (-1) now,
                localSize (mkDownloadPath output_dir sid (-1) now)⟩]) }) ∧
    ¬ ((r.videos.length : Int) ≤ (-1 : Int)) ∧
    parse_int_param (.str "-1") (some 0) = some (-1) := by
  have hlen1 : 0 < r.videos.length := List.length_pos.mpr hvid
  have hgt : ¬ ((r.videos.length : Int) ≤ (-1 : Int)) := by
    have : (1 : Int) ≤ (r.videos.length : Int) := by exact_mod_cast hlen1
    omega
  have hpy : pyGet r.videos (-1) = some v := by
    unfold pyGet
    rw [if_neg (by omega), if_pos (by
      have : (1 : Int) ≤ (r.videos.length : Int) := by exact_mod_cast hlen1
      omega)]
    have harith : ((-1 : Int) + (r.videos.length : Int)).toNat = r.videos.length - 1 := by
      omega
    rw [harith, ← List.getLast?_eq_getElem?, hlast]
  have hnp : get_status alive st sid = (some r, st) :=
    get_status_no_probe h (by rw [hc]; decide)
  have hloc : ¬ (pyStartsWith u "/" = true ∧ localExists u = true) := by
    rintro ⟨hs, _⟩
    rw [hslash] at hs
    cases hs
  refine ⟨hpy, ?_, hgt, by decide⟩
  simp [veo_download_video, hnp, hc, hvid, hgt, hfind, hpy, huri, hemp, hloc, hf1, hf2, hf]

/-- C10 witness: downloading index -1 from a concrete completed session with
one API-form artifact selects that (last) artifact. -/
theorem c10_witness :
    pyGet sampleCompleted.videos (-1) =
      some ⟨some "https://host/v1beta/files/abc:download?alt=media"⟩ := by
  exact (c10_negative_index_accepted (fun _ => true) 99 (fun _ => .ok 5) (fun _ => false)
    (fun _ => 0) [sampleCompleted] "gen_c_3" "/out" sampleCompleted
    ⟨some "https://host/v1beta/files/abc:download?alt=media"⟩
    "https://host/v1beta/files/abc:download?alt=media" 5
    (by decide) rfl (by decide) (by decide) (by decide) rfl (by decide) (by decide)
    (by decide) (by decide) rfl).1

section CleanupLemmas

/-- `removeStore` is a filter on the session id. -/
theorem removeStore_eq_filter (st : Store) (sid : String) :
    removeStore st sid = st.filter (fun s => decide (s.session_id ≠ sid)) := by
  induction st with
  | nil => rfl
  | cons a rest ih =>
    by_cases ha : a.session_id = sid
    · simp [removeStore, ha, List.filter_cons, ih]
    · simp [removeStore, ha, List.filter_cons, ih]

/-- Deleting a list of state files is a filter on the session id. -/
theorem removeMany_eq_filter (sids : List String) :
    ∀ st : Store, removeMany st sids = st.filter (fun s => decide (s.session_id ∉ sids)) := by
  induction sids with
  | nil => intro st; simp [removeMany]
  | cons sid sids ih =>
    intro st
    show removeMany (removeStore st sid) sids = _
    rw [ih, removeStore_eq_filter, List.filter_filter]
    apply List.filter_congr
    intro x _
    by_cases h1 : x.session_id = sid <;> by_cases h2 : x.session_id ∈ sids <;>
      simp [h1, h2]

/-- The cleanup loop: the count grows by the number of selected sessions and
the store loses exactly their state files, provided the session ids are
distinct and each selected session's state file exists. -/
theorem cleanup_fold_spec (sel : Record → Bool) :
    ∀ (sess : List Record) (n : Nat) (st2 : Store),
      (sess.map Record.session_id).Nodup →
      (∀ x ∈ sess, (readStore st2 x.session_id).isSome = true) →
      (sess.foldl (cleanup_step sel) (n, st2)).1 = n + (sess.filter sel).length ∧
      (sess.foldl (cleanup_step sel) (n, st2)).2 =
        removeMany st2 ((sess.filter sel).map Record.session_id) := by
  intro sess
  induction sess with
  | nil => intro n st2 _ _; exact ⟨rfl, rfl⟩
  | cons x sess ih =>
    intro n st2 hnd hread
    have hx : (readStore st2 x.session_id).isSome = true :=
      hread x (List.mem_cons_self x sess)
    have hnd' : (sess.map Record.session_id).Nodup := (List.nodup_cons.mp hnd).2
    have hxs : x.session_id ∉ sess.map Record.session_id := (List.nodup_cons.mp hnd).1
    by_cases hsel : sel x = true
    · have hstep : cleanup_step sel (n, st2) x = (n + 1, removeStore st2 x.session_id) := by
        simp [cleanup_step, hsel, hx]
      have hread' : ∀ y ∈ sess, (readStore (removeStore st2 x.session_id) y.session_id).isSome
          = true := by
        intro y hy
        have hne : y.session_id ≠ x.session_id := by
          intro he
          exact hxs (he ▸ List.mem_map_of_mem Record.session_id hy)
        rw [readStore_removeStore_ne hne]
        exact hread y (List.mem_cons_of_mem x hy)
      have := ih (n + 1) (removeStore st2 x.session_id) hnd' hread'
      constructor
      · rw [List.foldl_cons, hstep, this.1, List.filter_cons_of_pos hsel]
        simp [List.length_cons]
        omega
      · rw [List.foldl_cons, hstep, this.2, List.filter_cons_of_pos hsel]
        rfl
    · have hsel' : sel x = false := by
        cases h : sel x
        · rfl
        · exact absurd h hsel
      have hstep : cleanup_step sel (n, st2) x = (n, st2) := by
        simp [cleanup_step, hsel']
      have := ih n st2 hnd' (fun y hy => hread y (List.mem_cons_of_mem x hy))
      rw [List.foldl_cons, hstep, List.filter_cons_of_neg (by simp [hsel'])]
      exact this

/-- Mapping under `filterMap` with a total function keeps every element. -/
theorem filterMap_some_eq_map (f : Record → Record) (l : List Record) :
    l.filterMap (fun s0 => some (f s0)) = l.map f := by
  induction l with
  | nil => rfl
  | cons a rest ih => simp [List.filterMap_cons, ih]

/-- With `active_only = false` the listing is a sorted copy of the
reconciled records. -/
theorem list_generations_false (alive : Int → Bool) (st : Store) :
    list_generations alive st false =
      List.insertionSort newerFirst (st.map (reconcileList alive)) := by
  show List.insertionSort newerFirst (st.filterMap (fun s0 =>
      if false = false ∨ (reconcileList alive s0).status ∈ activeStatuses
      then some (reconcileList alive s0) else none)) = _
  congr 1
  have hfun : (fun s0 : Record =>
      if false = false ∨ (reconcileList alive s0).status ∈ activeStatuses
      then some (reconcileList alive s0) else none) =
      (fun s0 => some (reconcileList alive s0)) := by
    funext s0
    exact if_pos (Or.inl rfl)
  rw [hfun]
  exact filterMap_some_eq_map _ st

/-- Under `completed_only`, a session whose (reconciled) status is
non-terminal is never selected for deletion. -/
theorem cleanup_selects_nonterminal (cutoff : Int) (s : Record)
    (h : s.status ∉ terminalStatuses) : cleanup_selects cutoff true s = false := by
  unfold cleanup_selects
  cases hts : parse_session_timestamp s.session_id with
  | none => rfl
  | some ts =>
    by_cases h1 : ts > cutoff
    · simp [h1]
    · simp [h1, h]

/-- A selected session has a parsed embedded timestamp at or before the
cutoff, and a terminal (reconciled) status under `completed_only`. -/
theorem cleanup_selects_true_elim {cutoff : Int} {co : Bool} {s : Record}
    (h : cleanup_selects cutoff co s = true) :
    ∃ ts, parse_session_timestamp s.session_id = some ts ∧ ts ≤ cutoff ∧
      (co = true → s.status ∈ terminalStatuses) := by
  cases hts : parse_session_timestamp s.session_id with
  | none => simp [cleanup_selects, hts] at h
  | some ts =>
    simp only [cleanup_selects, hts] at h
    by_cases h1 : ts > cutoff
    · rw [if_pos h1] at h; cases h
    · rw [if_neg h1] at h
      refine ⟨ts, rfl, by omega, ?_⟩
      intro hco
      by_contra hterm
      rw [if_pos ⟨hco, hterm⟩] at h
      cases h

/-- Reconciliation preserves the listing's session-id column. -/
theorem map_sid_reconcile (alive : Int → Bool) (st : Store) :
    (st.map (reconcileList alive)).map Record.session_id = st.map Record.session_id := by
  induction st with
  | nil => rfl
  | cons a rest ih => simp [reconcileList_session_id, ih]

end CleanupLemmas

/-- C3 counterexample: with `completed_only = false`, a 7-day cleanup at time
691300 deletes the record of an 8-day-old session whose status is the
non-terminal `running` - the claim's "never deleted regardless of age for
any completed_only value" fails. -/
theorem c3_counterexample_nonterminal_deleted :
    veo_cleanup_sessions (fun _ => true) 691300 7 false [sampleOldRunning] = (1, []) ∧
    sampleOldRunning.status = .running ∧
    sampleOldRunning.status ∉ terminalStatuses := by
  refine ⟨by decide, rfl, by decide⟩

/-- C3 (amended): cleanup deletes exactly the records whose embedded
creation timestamp parses and is at or before the cutoff and - when
`completed_only` is set - whose liveness-reconciled status is terminal, and
returns the count of removed records; in particular, when `completed_only`
is set, a record whose reconciled status is non-terminal is never deleted
regardless of its age, and any deleted record is at least cutoff-old (and
reconciled-terminal when `completed_only` is set).  Stated for stores whose
session ids are distinct, as one state file per job guarantees. -/
theorem c3_cleanup_deletes_exactly (alive : Int → Bool) (now older_than_days : Int)
    (completed_only : Bool) (st : Store)
    (hkeys : (st.map Record.session_id).Nodup) :
    (veo_cleanup_sessions alive now older_than_days completed_only st).2 =
      st.filter (fun s =>
        !(cleanup_selects (now - older_than_days * 24 * 60 * 60) completed_only
            (reconcileList alive s))) ∧
    (veo_cleanup_sessions alive now older_than_days completed_only st).1 =
      (st.filter (fun s =>
        cleanup_selects (now - older_than_days * 24 * 60 * 60) completed_only
          (reconcileList alive s))).length ∧
    (∀ s ∈ st, completed_only = true →
      (reconcileList alive s).status ∉ terminalStatuses →
      s ∈ (veo_cleanup_sessions alive now older_than_days completed_only st).2) ∧
    (∀ s ∈ st, s ∉ (veo_cleanup_sessions alive now older_than_days completed_only st).2 →
      ∃ ts, parse_session_timestamp s.session_id = some ts ∧
        ts ≤ now - older_than_days * 24 * 60 * 60 ∧
        (completed_only = true → (reconcileList alive s).status ∈ terminalStatuses)) := by
  have hperm : (List.insertionSort newerFirst (st.map (reconcileList alive))).Perm
      (st.map (reconcileList alive)) := List.perm_insertionSort _ _
  have hnd : ((List.insertionSort newerFirst (st.map (reconcileList alive))).map
      Record.session_id).Nodup := by
    have hp2 := hperm.map Record.session_id
    rw [map_sid_reconcile] at hp2
    exact hp2.nodup_iff.mpr hkeys
  have hread : ∀ x ∈ List.insertionSort newerFirst (st.map (reconcileList alive)),
      (readStore st x.session_id).isSome = true := by
    intro x hx
    obtain ⟨s0, hs0, hxeq⟩ := List.mem_map.mp (hperm.mem_iff.mp hx)
    rw [← hxeq, reconcileList_session_id]
    exact readStore_isSome_of_mem hs0
  have hdef : veo_cleanup_sessions alive now older_than_days completed_only st =
      (List.insertionSort newerFirst (st.map (reconcileList alive))).foldl
        (cleanup_step (cleanup_selects (now - older_than_days * 24 * 60 * 60)
          completed_only)) (0, st) := by
    show (list_generations alive st false).foldl
      (cleanup_step (cleanup_selects (now - older_than_days * 24 * 60 * 60)
        completed_only)) (0, st) = _
    rw [list_generations_false]
  obtain ⟨hcount, hstore⟩ := cleanup_fold_spec
    (cleanup_selects (now - older_than_days * 24 * 60 * 60) completed_only)
    (List.insertionSort newerFirst (st.map (reconcileList alive))) 0 st hnd hread
  have hmemdel : ∀ s ∈ st,
      (s.session_id ∈ ((List.insertionSort newerFirst
          (st.map (reconcileList alive))).filter
        (cleanup_selects (now - older_than_days * 24 * 60 * 60) completed_only)).map
          Record.session_id ↔
        cleanup_selects (now - older_than_days * 24 * 60 * 60) completed_only
          (reconcileList alive s) = true) := by
    intro s hs
    constructor
    · intro hmem
      obtain ⟨x, hxf, hxeq⟩ := List.mem_map.mp hmem
      obtain ⟨hxm, hxsel⟩ := List.mem_filter.mp hxf
      obtain ⟨s0, hs0, hx0⟩ := List.mem_map.mp (hperm.mem_iff.mp hxm)
      have hsid : s0.session_id = s.session_id := by
        rw [← hxeq, ← hx0, reconcileList_session_id]
      have : s0 = s := List.inj_on_of_nodup_map hkeys hs0 hs hsid
      rw [← this, hx0]
      exact hxsel
    · intro hsel
      have hmem : reconcileList alive s ∈
          List.insertionSort newerFirst (st.map (reconcileList alive)) :=
        hperm.mem_iff.mpr (List.mem_map_of_mem (reconcileList alive) hs)
      have := List.mem_map_of_mem Record.session_id
        (List.mem_filter.mpr ⟨hmem, hsel⟩)
      rwa [reconcileList_session_id] at this
  have hstmain : (veo_cleanup_sessions alive now older_than_days completed_only st).2 =
      st.filter (fun s =>
        !(cleanup_selects (now - older_than_days * 24 * 60 * 60) completed_only
            (reconcileList alive s))) := by
    rw [hdef, hstore, removeMany_eq_filter]
    apply List.filter_congr
    intro s hs
    cases h : cleanup_selects (now - older_than_days * 24 * 60 * 60) completed_only
        (reconcileList alive s) with
    | true => simp [(hmemdel s hs).mpr h]
    | false =>
      have hnotin : s.session_id ∉ ((List.insertionSort newerFirst
          (st.map (reconcileList alive))).filter
        (cleanup_selects (now - older_than_days * 24 * 60 * 60) completed_only)).map
          Record.session_id := by
        intro hmem
        rw [(hmemdel s hs).mp hmem] at h
        cases h
      simp [hnotin]
  have hcntmain : (veo_cleanup_sessions alive now older_than_days completed_only st).1 =
      (st.filter (fun s =>
        cleanup_selects (now - older_than_days * 24 * 60 * 60) completed_only
          (reconcileList alive s))).length := by
    rw [hdef, hcount, Nat.zero_add]
    rw [(List.Perm.filter _ hperm).length_eq, List.filter_map, List.length_map]
    rfl
  refine ⟨hstmain, hcntmain, ?_, ?_⟩
  · intro s hs hco hterm
    rw [hstmain]
    refine List.mem_filter.mpr ⟨hs, ?_⟩
    rw [hco] at *
    rw [cleanup_selects_nonterminal (now - older_than_days * 24 * 60 * 60)
      (reconcileList alive s) hterm]
    rfl
  · intro s hs hnot
    rw [hstmain] at hnot
    have hsel : cleanup_selects (now - older_than_days * 24 * 60 * 60) completed_only
        (reconcileList alive s) = true := by
      by_contra hne
      have hfalse : cleanup_selects (now - older_than_days * 24 * 60 * 60) completed_only
          (reconcileList alive s) = false := by
        cases h : cleanup_selects (now - older_than_days * 24 * 60 * 60) completed_only
            (reconcileList alive s)
        · rfl
        · exact absurd h hne
      exact hnot (List.mem_filter.mpr ⟨hs, by rw [hfalse]; rfl⟩)
    obtain ⟨ts, hts, hle, himp⟩ := cleanup_selects_true_elim hsel
    rw [reconcileList_session_id] at hts
    exact ⟨ts, hts, hle, himp⟩

/-- C3 witness: with `completed_only` set, the 8-day-old `running` record
survives a 7-day cleanup. -/
theorem c3_witness :
    (veo_cleanup_sessions (fun _ => true) 691300 7 true [sampleOldRunning]).2 =
      [sampleOldRunning] := by
  rw [(c3_cleanup_deletes_exactly (fun _ => true) 691300 7 true [sampleOldRunning]
    (by decide)).1]
  decide

end Veo
